import Mathlib

/-! Verification of the retrieval / session-memory core of the RAG chatbot
backend (`backend/utils/similarity.py`, `backend/utils/chunking.py`,
`backend/routes/chat.py`).

Floating-point similarity scores are modelled exactly: a cosine
similarity value is `num / Real.sqrt den` with `num, den : ℚ` and
`den > 0`; comparisons on such values are decidable by clearing the
square roots, so the whole pipeline stays executable.
-/

/-- An exact similarity score `num / √den` (with `den > 0`).
`cosine_similarity` produces `num = dot v₁ v₂` and
`den = ‖v₁‖² * ‖v₂‖²`; a plain rational `q` is represented as
`⟨q, 1⟩`. -/
structure SimScore where
  num : ℚ
  den : ℚ
  den_pos : 0 < den

instance : DecidableEq SimScore := fun a b =>
  decidable_of_iff (a.num = b.num ∧ a.den = b.den) (by
    cases a; cases b; simp)

/-- Embed a rational as a score (`q = q / √1`). -/
def SimScore.ofRat (q : ℚ) : SimScore := ⟨q, 1, one_pos⟩

/-- Decidable order on exact scores: `n₁/√d₁ ≤ n₂/√d₂`, decided by sign
analysis and squaring. -/
def SimScore.le (s t : SimScore) : Bool :=
  if s.num ≤ 0 then
    if 0 ≤ t.num then true
    else decide (t.num ^ 2 * s.den ≤ s.num ^ 2 * t.den)
  else
    if t.num ≤ 0 then false
    else decide (s.num ^ 2 * t.den ≤ t.num ^ 2 * s.den)

/-- Strict order, as the Python float comparison `s < t`. -/
def SimScore.lt (s t : SimScore) : Bool := !(SimScore.le t s)

/-- Semantic equality of scores (equal real values). -/
def SimScore.equiv (s t : SimScore) : Bool := SimScore.le s t && SimScore.le t s

/-- The real number a score stands for. -/
noncomputable def SimScore.val (s : SimScore) : ℝ := s.num / Real.sqrt s.den

/-! Section: Cosine similarity (`backend/utils/similarity.py`, `cosine_similarity`) -/

/-- Model of `np.dot` on two 1-D arrays of equal length. -/
def dot : List ℚ → List ℚ → ℚ
  | [], _ => 0
  | _, [] => 0
  | a :: as, b :: bs => a * b + dot as bs

/-- Squared Euclidean norm; `np.linalg.norm v = √(normSq v)`. -/
def normSq (v : List ℚ) : ℚ := (v.map (fun x => x * x)).sum

/-- The `ValueError` raised by `cosine_similarity` on shape mismatch. -/
inductive SimError where
  | dimensionMismatch
deriving DecidableEq

/-- Model of `cosine_similarity(vec1, vec2)`: `0.0` for an empty vector, a
`ValueError` for distinct shapes, `0.0` for a zero denominator, else
`dot / (‖vec1‖ * ‖vec2‖)` — represented exactly as
`dot / √(normSq vec1 * normSq vec2)`. -/
def cosine_similarity (vec1 vec2 : List ℚ) : Except SimError SimScore :=
  if vec1.length = 0 ∨ vec2.length = 0 then .ok (SimScore.ofRat 0)
  else if vec1.length ≠ vec2.length then .error .dimensionMismatch
  else if h : normSq vec1 * normSq vec2 = 0 then .ok (SimScore.ofRat 0)
  else .ok ⟨dot vec1 vec2, normSq vec1 * normSq vec2, by
    have hnn : ∀ v : List ℚ, 0 ≤ normSq v := by
      intro v
      unfold normSq
      induction v with
      | nil => simp
      | cons a as ih =>
        simp only [List.map_cons, List.sum_cons]
        nlinarith [mul_self_nonneg a]
    exact lt_of_le_of_ne (mul_nonneg (hnn vec1) (hnn vec2)) (Ne.symm h)⟩

/-! Section: Retrieval (`backend/utils/similarity.py`, `retrieve_top_k`) -/

/-- The `"vector"` field of a stored document: missing key, present but
not a list, or an actual list of floats. -/
inductive PyVector where
  | absent
  | malformed
  | vec (v : List ℚ)
deriving DecidableEq

/-- One entry of the loaded vector store. `isDict = false` models a
top-level JSON value that is not an object. -/
structure Document where
  isDict : Bool
  vector : PyVector
  content : Option String
deriving DecidableEq

/-- An element of the list returned by `retrieve_top_k`. -/
structure RetrievedItem where
  content : String
  vector : List ℚ
  similarity : SimScore
deriving DecidableEq

/-- Comparator of the stable descending sort
`ranked.sort(key=..., reverse=True)`: `x` may precede `y` iff the score
of `y` is at most the score of `x`. -/
def itemLE (x y : RetrievedItem) : Bool := SimScore.le y.similarity x.similarity

/-- Body of the `for doc in documents` loop of `retrieve_top_k`:
`none` means `continue` (skipped entry), `some` the appended item. -/
def rankEntry (query_vector : List ℚ) (threshold : ℚ) (doc : Document) :
    Option RetrievedItem :=
  if doc.isDict = false then none
  else match doc.vector with
    | .vec v =>
      if v = [] then none
      else match cosine_similarity query_vector v with
        | .error _ => none
        | .ok score =>
          if SimScore.lt score (SimScore.ofRat threshold) then none
          else some ⟨doc.content.getD "", v, score⟩
    | _ => none

/-- The `ranked` list built by the loop, in document order. -/
def rankedEntries (query_vector : List ℚ) (documents : List Document)
    (threshold : ℚ) : List RetrievedItem :=
  documents.filterMap (rankEntry query_vector threshold)

/-- Model of `retrieve_top_k(query_vector, documents, k, threshold)`. -/
def retrieve_top_k (query_vector : List ℚ) (documents : List Document)
    (k : ℤ) (threshold : ℚ) : List RetrievedItem :=
  if k ≤ 0 then []
  else if documents = [] then []
  else ((rankedEntries query_vector documents threshold).mergeSort itemLE).take k.toNat

/-! Section: Chunking (`backend/utils/chunking.py`, `chunk_text`) -/

/-- Split a character list at every whitespace character (the pieces
between whitespace characters, in order, possibly empty). -/
def splitOnSpace : List Char → List (List Char)
  | [] => [[]]
  | c :: rest =>
    if c.isWhitespace then [] :: splitOnSpace rest
    else match splitOnSpace rest with
      | [] => [[c]]
      | w :: ws => (c :: w) :: ws

/-- Python `str.split()`: split on whitespace runs, dropping empties. -/
def pySplit (text : String) : List String :=
  ((splitOnSpace text.data).map (fun w => String.mk w)).filter (fun w => w ≠ "")

/-- Python `str.strip()`: drop leading and trailing whitespace. -/
def pyStrip (s : String) : String :=
  String.mk (((s.data.dropWhile (fun c => c.isWhitespace)).reverse.dropWhile
    (fun c => c.isWhitespace)).reverse)

/-- Python `range(0, stop, step)` for `step > 0`. -/
def pyRange (stop step : ℕ) : List ℕ := List.range' 0 ((stop + step - 1) / step) step

/-- The `ValueError` raised on bad chunking arguments. -/
inductive ChunkError where
  | validation (message : String)
deriving DecidableEq

/-- The `for start in range(0, len(words), step)` loop with its two
`break`s, over the explicit list of start indices. -/
def chunkLoop (words : List String) (chunk_size : ℕ) : List ℕ → List String
  | [] => []
  | start :: rest =>
    let chunk_words := (words.drop start).take chunk_size
    if chunk_words = [] then []
    else
      String.intercalate " " chunk_words ::
        (if words.length ≤ start + chunk_size then [] else chunkLoop words chunk_size rest)

/-- Model of `chunk_text(text, chunk_size, overlap)`. -/
def chunk_text (text : String) (chunk_size : ℤ) (overlap : ℤ) :
    Except ChunkError (List String) :=
  if chunk_size ≤ 0 then .error (.validation "chunk_size must be greater than 0")
  else if overlap < 0 then .error (.validation "overlap must be greater than or equal to 0")
  else if chunk_size ≤ overlap then .error (.validation "overlap must be smaller than chunk_size")
  else
    let words := pySplit text
    if words = [] then .ok []
    else .ok (chunkLoop words chunk_size.toNat
      (pyRange words.length (chunk_size.toNat - overlap.toNat)))

/-! Section: Session memory (`backend/routes/chat.py`) -/

/-- One `{"role": ..., "content": ...}` session message. -/
structure Message where
  role : String
  content : String
deriving DecidableEq, Repr

/-- The `session_memory` dict, as an insertion-ordered association list. -/
abbrev SessionStore := List (String × List Message)

def MAX_SESSION_MESSAGES : ℕ := 5

def lookupSession (st : SessionStore) (sid : String) : Option (List Message) :=
  (st.find? (fun p => p.1 == sid)).map (fun p => p.2)

/-- Model of `session_memory.setdefault(sid, [])`, as a state transformer. -/
def setdefaultEmpty (st : SessionStore) (sid : String) : SessionStore :=
  if (st.find? (fun p => p.1 == sid)).isSome then st else st ++ [(sid, [])]

def setSession (st : SessionStore) (sid : String) (log : List Message) : SessionStore :=
  st.map (fun p => if p.1 == sid then (sid, log) else p)

/-- Model of `add_message(session_id, role, content)`. -/
def add_message (st : SessionStore) (session_id role content : String) : SessionStore :=
  if role ≠ "user" ∧ role ≠ "assistant" then st
  else
    let cleaned := pyStrip content
    if cleaned = "" then st
    else
      let st' := setdefaultEmpty st session_id
      let messages := ((lookupSession st' session_id).getD []) ++ [⟨role, cleaned⟩]
      let messages := if MAX_SESSION_MESSAGES < messages.length
        then messages.drop (messages.length - MAX_SESSION_MESSAGES) else messages
      setSession st' session_id messages

/-- Model of `get_recent_messages(session_id, limit)`: the returned copy and the
store after the internal `setdefault`. -/
def get_recent_messages (st : SessionStore) (session_id : String) (limit : ℤ) :
    List Message × SessionStore :=
  if limit ≤ 0 then ([], st)
  else
    let st' := setdefaultEmpty st session_id
    let messages := (lookupSession st' session_id).getD []
    (messages.drop (messages.length - limit.toNat), st')

/-! Section: Prompt building (`backend/routes/chat.py`) -/

/-- An ASCII apostrophe (kept out of string literals). -/
def apos : String := (Char.ofNat 39).toString

def NO_CONTEXT_FALLBACK : String := "I don" ++ apos ++ "t know"

/-- Model of `_format_history(history)`. -/
def format_history (history : List Message) : String :=
  if history = [] then "No prior history."
  else
    let formatted_lines := history.filterMap (fun m =>
      let content := pyStrip m.content
      if content = "" then none
      else some ((if m.role = "assistant" then "Assistant" else "User") ++ ": " ++ content))
    if formatted_lines = [] then "No prior history."
    else String.intercalate "\n" formatted_lines

def promptPreamble : String :=
  "You are a helpful AI assistant.\n\n" ++
  "STRICT RULES:\n" ++
  "- Answer ONLY from provided context\n" ++
  "- Chat history is only for continuity\n" ++
  "- If answer not found -> say " ++ apos ++ "I don" ++ apos ++ "t know" ++ apos ++ "\n\n" ++
  "CONTEXT:\n"

/-- Model of `_build_prompt(question, retrieved_chunks, history)`. -/
def build_prompt (question : String) (retrieved_chunks : List RetrievedItem)
    (history : List Message) : String :=
  let top_chunks := String.intercalate "\n\n" (retrieved_chunks.map (fun c => c.content))
  let formatted_history := format_history history
  promptPreamble ++ top_chunks ++ "\n\n" ++
  "CHAT HISTORY:\n" ++ formatted_history ++ "\n\n" ++
  "USER QUESTION:\n" ++ question ++ "\n\n" ++
  "ANSWER:"

/-! Section: The chat endpoint (`backend/routes/chat.py`, `chat`) -/

structure HTTPError where
  status : ℕ
  detail : String
deriving DecidableEq

/-- Outcomes of `_call_gemini_llm` (the Generator collaborator). -/
inductive GenError where
  | timeout
  | apiError (message : String)
deriving DecidableEq

/-- Failures of `_load_vector_store`. -/
inductive StoreError where
  | notFound
  | formatError
deriving DecidableEq

structure ChatResponse where
  reply : String
  retrievedChunks : ℕ
deriving DecidableEq

def RETRIEVAL_TOP_K : ℤ := 3

def SIMILARITY_THRESHOLD : ℚ := 7/10

/-- Outcome of the `try: reply = _call_gemini_llm(prompt) ...` block of
the handler: a timeout maps to 504, another API failure to 502, and a
reply is recorded in session memory and returned with the chunk count.
The third component logs the prompt sent to the generator. -/
def genStep (result : Except GenError String) (st : SessionStore) (session_id : String)
    (retrievedCount : ℕ) (prompt : String) :
    Except HTTPError ChatResponse × SessionStore × List String :=
  match result with
  | .error .timeout => (.error ⟨504, "Gemini API request timed out."⟩, st, [prompt])
  | .error (.apiError m) => (.error ⟨502, "Gemini API failure: " ++ m⟩, st, [prompt])
  | .ok reply =>
    (.ok ⟨reply, retrievedCount⟩, add_message st session_id "assistant" reply, [prompt])

/-- The `chat` request handler. External collaborators are parameters:
`embed` (query embedding, `[]` = failure), `store` (loaded vector
store), `gen` (the Gemini generation call). Returns the HTTP outcome,
the session store after the request, and the list of prompts sent to
the generator (so that "the Generator is never invoked" is a statement
about the result). -/
def chat (embed : String → List ℚ) (store : Except StoreError (List Document))
    (gen : String → Except GenError String) (st : SessionStore)
    (sessionId message : Option String) :
    Except HTTPError ChatResponse × SessionStore × List String :=
  let session_id := pyStrip (sessionId.getD "")
  let message := pyStrip (message.getD "")
  if session_id = "" then (.error ⟨400, "sessionId is required."⟩, st, [])
  else if message = "" then (.error ⟨400, "message cannot be empty."⟩, st, [])
  else
    let st1 := setdefaultEmpty st session_id
    let st2 := add_message st1 session_id "user" message
    let hp := get_recent_messages st2 session_id (MAX_SESSION_MESSAGES : ℤ)
    let history := hp.1
    let st3 := hp.2
    let query_vector := embed message
    if query_vector = [] then
      (.error ⟨502, "Gemini API failure while generating query embedding."⟩, st3, [])
    else
      match store with
      | .error _ => (.error ⟨500, "Vector store is unavailable."⟩, st3, [])
      | .ok documents =>
        let retrieved := retrieve_top_k query_vector documents RETRIEVAL_TOP_K SIMILARITY_THRESHOLD
        if retrieved = [] then
          (.ok ⟨NO_CONTEXT_FALLBACK, 0⟩,
           add_message st3 session_id "assistant" NO_CONTEXT_FALLBACK, [])
        else
          let prompt := build_prompt message retrieved history
          genStep (gen prompt) st3 session_id retrieved.length prompt

/-! Section: Session-memory lemmas -/

/-- The log currently stored for a session (empty when unregistered). -/
def sessionLog (st : SessionStore) (sid : String) : List Message :=
  (lookupSession st sid).getD []

/-- Last `n` elements of a list, as Python `l[-n:]` for `n > 0`. -/
def lastN {α : Type} (n : ℕ) (l : List α) : List α := l.drop (l.length - n)

instance {ε α : Type} [DecidableEq ε] [DecidableEq α] : DecidableEq (Except ε α) := fun x y =>
  match x, y with
  | .ok a, .ok b => decidable_of_iff (a = b) (by simp)
  | .error e, .error f => decidable_of_iff (e = f) (by simp)
  | .ok _, .error _ => isFalse (fun h => by cases h)
  | .error _, .ok _ => isFalse (fun h => by cases h)

/-! Section: Retrieval lemmas -/

/-- A store entry that `retrieve_top_k` skips: not an object, no vector
field, a non-list vector, an empty vector, or a vector on which the
similarity computation raises. -/
def badDocument (q : List ℚ) (doc : Document) : Prop :=
  doc.isDict = false ∨ doc.vector = .absent ∨ doc.vector = .malformed ∨
  ∃ v, doc.vector = .vec v ∧ (v = [] ∨ ∃ e, cosine_similarity q v = .error e)

/-- Store used in the worked retrieval example: three entries whose
cosine similarities against the query `[10,0,0,0,0]` are exactly
`0.6`, `0.9` and `0.75`. -/
def exampleDocs : List Document :=
  [⟨true, .vec [6, 8, 0, 0, 0], some "doc06"⟩,
   ⟨true, .vec [9, 3, 3, 1, 0], some "doc09"⟩,
   ⟨true, .vec [15/2, 13/2, 1, 1/2, 1/2], some "doc075"⟩]

/-! Section: Prompt-builder lemmas -/

/-- Rendering of the chat history described by the specification: each
message becomes a role-tagged line, messages blank after trimming are
skipped. -/
def renderedHistoryLines (history : List Message) : List String :=
  history.filterMap (fun m =>
    if pyStrip m.content = "" then none
    else some ((if m.role = "assistant" then "Assistant" else "User") ++ ": " ++
      pyStrip m.content))

/-- The history computed by the `chat` handler: the current user message
is appended to the session before the most recent messages are read. -/
def chatHistory (st : SessionStore) (sid msg : String) : List Message :=
  (get_recent_messages (add_message (setdefaultEmpty st sid) sid "user" msg) sid
    (MAX_SESSION_MESSAGES : ℤ)).1

/-! Section: Lemmas and claim theorems -/

theorem SimScore.sqrt_den_pos (s : SimScore) : 0 < Real.sqrt s.den :=
  Real.sqrt_pos.mpr (by exact_mod_cast s.den_pos)

/-- The Boolean comparison decides the real-number order: the shallow
embedding of the float comparison is faithful to the value semantics. -/
theorem SimScore.le_iff_val (s t : SimScore) :
    SimScore.le s t = true ↔ s.val ≤ t.val := by
  have has : (0:ℝ) < Real.sqrt s.den := s.sqrt_den_pos
  have hat : (0:ℝ) < Real.sqrt t.den := t.sqrt_den_pos
  have hs2 : (Real.sqrt s.den) ^ 2 = (s.den : ℝ) :=
    Real.sq_sqrt (by exact_mod_cast s.den_pos.le)
  have ht2 : (Real.sqrt t.den) ^ 2 = (t.den : ℝ) :=
    Real.sq_sqrt (by exact_mod_cast t.den_pos.le)
  have key : (s.val ≤ t.val) ↔ (s.num : ℝ) * Real.sqrt t.den ≤ (t.num : ℝ) * Real.sqrt s.den := by
    unfold SimScore.val
    rw [div_le_div_iff₀ has hat]
  rw [key]
  unfold SimScore.le
  rcases le_or_lt s.num 0 with hs | hs
  · rw [if_pos hs]
    have hsn : (s.num : ℝ) ≤ 0 := by exact_mod_cast hs
    rcases le_or_lt 0 t.num with ht | ht
    · rw [if_pos ht]
      have htn : (0:ℝ) ≤ (t.num : ℝ) := by exact_mod_cast ht
      refine ⟨fun _ => ?_, fun _ => rfl⟩
      have h1 : (s.num:ℝ) * Real.sqrt t.den ≤ 0 := mul_nonpos_of_nonpos_of_nonneg hsn hat.le
      have h2 : (0:ℝ) ≤ (t.num:ℝ) * Real.sqrt s.den := mul_nonneg htn has.le
      linarith
    · rw [if_neg (not_le.mpr ht)]
      rw [decide_eq_true_eq]
      have htn : (t.num : ℝ) < 0 := by exact_mod_cast ht
      have h1 : (s.num:ℝ) * Real.sqrt t.den ≤ 0 := mul_nonpos_of_nonpos_of_nonneg hsn hat.le
      have h2 : (t.num:ℝ) * Real.sqrt s.den < 0 := mul_neg_of_neg_of_pos htn has
      constructor
      · intro h
        have h' : ((t.num:ℝ)) ^ 2 * (Real.sqrt s.den) ^ 2 ≤ ((s.num:ℝ)) ^ 2 * (Real.sqrt t.den) ^ 2 := by
          rw [hs2, ht2]; exact_mod_cast h
        nlinarith [h', h1, h2]
      · intro h
        have h' : ((t.num:ℝ)) ^ 2 * (Real.sqrt s.den) ^ 2 ≤ ((s.num:ℝ)) ^ 2 * (Real.sqrt t.den) ^ 2 := by
          nlinarith [h, h2]
        rw [hs2, ht2] at h'
        exact_mod_cast h'
  · rw [if_neg (not_le.mpr hs)]
    have hsn : (0:ℝ) < (s.num : ℝ) := by exact_mod_cast hs
    rcases le_or_lt t.num 0 with ht | ht
    · rw [if_pos ht]
      have htn : (t.num : ℝ) ≤ 0 := by exact_mod_cast ht
      constructor
      · intro h
        exact absurd h (by simp)
      · intro h
        exfalso
        have h1 : (0:ℝ) < (s.num:ℝ) * Real.sqrt t.den := mul_pos hsn hat
        have h2 : (t.num:ℝ) * Real.sqrt s.den ≤ 0 := mul_nonpos_of_nonpos_of_nonneg htn has.le
        linarith
    · rw [if_neg (not_le.mpr ht)]
      rw [decide_eq_true_eq]
      have htn : (0:ℝ) < (t.num : ℝ) := by exact_mod_cast ht
      have h1 : (0:ℝ) < (s.num:ℝ) * Real.sqrt t.den := mul_pos hsn hat
      have h2 : (0:ℝ) < (t.num:ℝ) * Real.sqrt s.den := mul_pos htn has
      constructor
      · intro h
        have h' : ((s.num:ℝ)) ^ 2 * (Real.sqrt t.den) ^ 2 ≤ ((t.num:ℝ)) ^ 2 * (Real.sqrt s.den) ^ 2 := by
          rw [hs2, ht2]; exact_mod_cast h
        nlinarith [h', h1, h2]
      · intro h
        have h' : ((s.num:ℝ)) ^ 2 * (Real.sqrt t.den) ^ 2 ≤ ((t.num:ℝ)) ^ 2 * (Real.sqrt s.den) ^ 2 := by
          nlinarith [h, h1]
        rw [hs2, ht2] at h'
        exact_mod_cast h'

theorem SimScore.lt_iff_val (s t : SimScore) :
    SimScore.lt s t = true ↔ s.val < t.val := by
  have h := SimScore.le_iff_val t s
  unfold SimScore.lt
  cases hb : SimScore.le t s
  · rw [hb] at h
    simp only [Bool.not_false, true_iff]
    refine not_le.mp (fun hc => ?_)
    have := h.mpr hc
    simp at this
  · rw [hb] at h
    simp only [Bool.not_true, Bool.false_eq_true, false_iff, not_lt]
    exact h.mp rfl

theorem SimScore.equiv_iff_val (s t : SimScore) :
    SimScore.equiv s t = true ↔ s.val = t.val := by
  unfold SimScore.equiv
  rw [Bool.and_eq_true, SimScore.le_iff_val, SimScore.le_iff_val]
  exact ⟨fun ⟨h1, h2⟩ => le_antisymm h1 h2, fun h => ⟨h.le, h.ge⟩⟩

theorem SimScore.le_refl (s : SimScore) : SimScore.le s s = true :=
  (SimScore.le_iff_val s s).mpr le_rfl

theorem SimScore.le_total (s t : SimScore) :
    (SimScore.le s t || SimScore.le t s) = true := by
  rcases le_or_lt s.val t.val with h | h
  · rw [Bool.or_eq_true]
    exact Or.inl ((SimScore.le_iff_val s t).mpr h)
  · rw [Bool.or_eq_true]
    exact Or.inr ((SimScore.le_iff_val t s).mpr h.le)

theorem SimScore.le_trans {s t u : SimScore} (hst : SimScore.le s t = true)
    (htu : SimScore.le t u = true) : SimScore.le s u = true :=
  (SimScore.le_iff_val s u).mpr
    (((SimScore.le_iff_val s t).mp hst).trans ((SimScore.le_iff_val t u).mp htu))

theorem SimScore.ofRat_val (q : ℚ) : (SimScore.ofRat q).val = (q : ℝ) := by
  unfold SimScore.val SimScore.ofRat
  simp

theorem normSq_nonneg (v : List ℚ) : 0 ≤ normSq v := by
  unfold normSq
  induction v with
  | nil => simp
  | cons a as ih =>
    simp only [List.map_cons, List.sum_cons]
    nlinarith [mul_self_nonneg a]

theorem length_lastN {α : Type} (n : ℕ) (l : List α) :
    (lastN n l).length = min n l.length := by
  unfold lastN
  rw [List.length_drop]
  omega

theorem lastN_suffix {α : Type} (n : ℕ) (l : List α) : lastN n l <:+ l :=
  List.drop_suffix _ _

theorem lookupSession_setdefaultEmpty_self (st : SessionStore) (sid : String) :
    lookupSession (setdefaultEmpty st sid) sid = some (sessionLog st sid) := by
  unfold setdefaultEmpty sessionLog lookupSession
  cases h : st.find? (fun p => p.1 == sid) with
  | none =>
    have hsingle : List.find? (fun p => p.1 == sid) [(sid, ([] : List Message))] =
        some (sid, []) :=
      List.find?_cons_of_pos _ (beq_iff_eq.mpr rfl)
    simp [h, hsingle]
  | some p =>
    simp [h]

theorem lookupSession_setdefaultEmpty_other (st : SessionStore) (sid s : String)
    (h : s ≠ sid) : lookupSession (setdefaultEmpty st sid) s = lookupSession st s := by
  unfold setdefaultEmpty lookupSession
  cases hf : st.find? (fun p => p.1 == sid) with
  | none =>
    have hsingle : List.find? (fun p => p.1 == s) [(sid, ([] : List Message))] = none := by
      rw [List.find?_cons_of_neg _ ?_, List.find?_nil]
      simp only [Bool.not_eq_true]
      exact beq_eq_false_iff_ne.mpr (Ne.symm h)
    simp [hf, hsingle]
  | some p =>
    simp [hf]

theorem find?_setSession_eq (st : SessionStore) (sid : String) (log : List Message) :
    List.find? (fun q => q.1 == sid) (setSession st sid log) =
      (List.find? (fun q => q.1 == sid) st).map (fun _ => (sid, log)) := by
  induction st with
  | nil => rfl
  | cons p rest ih =>
    unfold setSession at ih ⊢
    rw [List.map_cons]
    cases hb : (p.1 == sid) with
    | true =>
      rw [if_pos rfl]
      simp only [List.find?, hb, beq_self_eq_true]
      rfl
    | false =>
      rw [if_neg (by simp [hb])]
      simp only [List.find?, hb]
      exact ih

theorem find?_setSession_ne (st : SessionStore) (sid s : String) (log : List Message)
    (h : s ≠ sid) :
    List.find? (fun q => q.1 == s) (setSession st sid log) =
      List.find? (fun q => q.1 == s) st := by
  induction st with
  | nil => rfl
  | cons p rest ih =>
    unfold setSession at ih ⊢
    rw [List.map_cons]
    cases hb : (p.1 == sid) with
    | true =>
      rw [if_pos rfl]
      have hs : (sid == s) = false := beq_eq_false_iff_ne.mpr (Ne.symm h)
      have hps : (p.1 == s) = false := by
        rw [beq_iff_eq.mp hb]; exact hs
      simp only [List.find?, hs, hps]
      exact ih
    | false =>
      rw [if_neg (by simp [hb])]
      simp only [List.find?]
      cases hps : (p.1 == s) with
      | true => rfl
      | false => exact ih

theorem lookupSession_setSession_self (st : SessionStore) (sid : String)
    (log : List Message) (h : (lookupSession st sid).isSome) :
    lookupSession (setSession st sid log) sid = some log := by
  unfold lookupSession at h ⊢
  rw [find?_setSession_eq]
  cases hf : List.find? (fun q => q.1 == sid) st with
  | none => rw [hf] at h; simp at h
  | some p => rfl

theorem lookupSession_setSession_other (st : SessionStore) (sid s : String)
    (log : List Message) (h : s ≠ sid) :
    lookupSession (setSession st sid log) s = lookupSession st s := by
  unfold lookupSession
  rw [find?_setSession_ne st sid s log h]

theorem sessionLog_setdefaultEmpty_self (st : SessionStore) (sid : String) :
    sessionLog (setdefaultEmpty st sid) sid = sessionLog st sid := by
  unfold sessionLog
  rw [lookupSession_setdefaultEmpty_self]
  rfl

/-- On a successful append, the log of the target session becomes the
last `MAX_SESSION_MESSAGES` entries of the old log plus the new message. -/
theorem add_message_log_self (st : SessionStore) (sid role content : String)
    (hrole : role = "user" ∨ role = "assistant") (hc : pyStrip content ≠ "") :
    sessionLog (add_message st sid role content) sid =
      lastN MAX_SESSION_MESSAGES (sessionLog st sid ++ [⟨role, pyStrip content⟩]) := by
  have hr : ¬(role ≠ "user" ∧ role ≠ "assistant") := by
    rcases hrole with h | h <;> simp [h]
  have hsd := lookupSession_setdefaultEmpty_self st sid
  have hsome : (lookupSession (setdefaultEmpty st sid) sid).isSome := by
    rw [hsd]; rfl
  unfold sessionLog
  simp only [add_message, if_neg hr, if_neg hc]
  rw [lookupSession_setSession_self _ _ _ hsome, hsd]
  simp only [Option.getD_some]
  unfold lastN
  by_cases hlen : MAX_SESSION_MESSAGES <
      (sessionLog st sid ++ [(⟨role, pyStrip content⟩ : Message)]).length
  · rw [if_pos (by unfold sessionLog at hlen; exact hlen)]
    unfold sessionLog
    rfl
  · rw [if_neg (by unfold sessionLog at hlen; exact hlen)]
    have h0 : (sessionLog st sid ++ [(⟨role, pyStrip content⟩ : Message)]).length -
        MAX_SESSION_MESSAGES = 0 := by omega
    unfold sessionLog at h0
    rw [h0, List.drop_zero]
    rfl

/-- An append never touches the log of a different session. -/
theorem add_message_log_other (st : SessionStore) (sid s role content : String)
    (h : s ≠ sid) :
    sessionLog (add_message st sid role content) s = sessionLog st s := by
  unfold add_message
  by_cases hr : role ≠ "user" ∧ role ≠ "assistant"
  · rw [if_pos hr]
  · rw [if_neg hr]
    by_cases hc : pyStrip content = ""
    · rw [if_pos hc]
    · rw [if_neg hc]
      unfold sessionLog
      rw [lookupSession_setSession_other _ _ _ _ h, lookupSession_setdefaultEmpty_other _ _ _ h]

theorem add_message_noop_role (st : SessionStore) (sid role content : String)
    (h1 : role ≠ "user") (h2 : role ≠ "assistant") :
    add_message st sid role content = st := by
  unfold add_message
  rw [if_pos ⟨h1, h2⟩]

theorem add_message_noop_empty (st : SessionStore) (sid role content : String)
    (h : pyStrip content = "") : add_message st sid role content = st := by
  unfold add_message
  by_cases hr : role ≠ "user" ∧ role ≠ "assistant"
  · rw [if_pos hr]
  · rw [if_neg hr, if_pos h]

/-- C3: `add_message` is a no-op when the role is not `user`/`assistant`
or when the content is empty after trimming; otherwise it appends the
trimmed message and keeps only the most recent `MAX_SESSION_MESSAGES`
(5) entries, dropping the oldest first; the length-at-most-5 invariant
is preserved by every append, and appending 6 valid messages to a fresh
session leaves exactly the last 5 in chronological order. -/
theorem claim_C3_session_append :
    (∀ (st : SessionStore) (sid role content : String), role ≠ "user" → role ≠ "assistant" →
      add_message st sid role content = st) ∧
    (∀ (st : SessionStore) (sid role content : String), pyStrip content = "" →
      add_message st sid role content = st) ∧
    (∀ (st : SessionStore) (sid role content : String),
      (role = "user" ∨ role = "assistant") → pyStrip content ≠ "" →
      sessionLog (add_message st sid role content) sid =
        lastN MAX_SESSION_MESSAGES (sessionLog st sid ++ [⟨role, pyStrip content⟩]) ∧
      (sessionLog (add_message st sid role content) sid).length ≤ MAX_SESSION_MESSAGES) ∧
    (∀ (st : SessionStore) (sid role content : String),
      (∀ s, (sessionLog st s).length ≤ MAX_SESSION_MESSAGES) →
      ∀ s, (sessionLog (add_message st sid role content) s).length ≤ MAX_SESSION_MESSAGES) ∧
    sessionLog (List.foldl (fun st c => add_message st "s" "user" c) []
        ["m1", "m2", "m3", "m4", "m5", "m6"]) "s" =
      [⟨"user", "m2"⟩, ⟨"user", "m3"⟩, ⟨"user", "m4"⟩, ⟨"user", "m5"⟩, ⟨"user", "m6"⟩] := by
  refine ⟨?_, ?_, ?_, ?_, ?_⟩
  · intro st sid role content h1 h2
    exact add_message_noop_role st sid role content h1 h2
  · intro st sid role content h
    exact add_message_noop_empty st sid role content h
  · intro st sid role content hrole hc
    refine ⟨add_message_log_self st sid role content hrole hc, ?_⟩
    rw [add_message_log_self st sid role content hrole hc, length_lastN]
    exact Nat.min_le_left _ _
  · intro st sid role content hinv s
    by_cases hrv : role = "user" ∨ role = "assistant"
    · by_cases hc : pyStrip content = ""
      · rw [add_message_noop_empty _ _ _ _ hc]
        exact hinv s
      · by_cases hs : s = sid
        · subst hs
          rw [add_message_log_self _ _ _ _ hrv hc, length_lastN]
          exact Nat.min_le_left _ _
        · rw [add_message_log_other _ _ _ _ _ hs]
          exact hinv s
    · push_neg at hrv
      rw [add_message_noop_role _ _ _ _ hrv.1 hrv.2]
      exact hinv s
  · decide

theorem claim_C3_session_append_witness :
    add_message [] "sess" "system" "hi" = [] ∧
    add_message [] "sess" "user" "   " = [] ∧
    sessionLog (add_message [] "sess" "user" " hi ") "sess" =
      lastN MAX_SESSION_MESSAGES
        (sessionLog ([] : SessionStore) "sess" ++ [⟨"user", pyStrip " hi "⟩]) :=
  ⟨claim_C3_session_append.1 [] "sess" "system" "hi" (by decide) (by decide),
   claim_C3_session_append.2.1 [] "sess" "user" "   " (by decide),
   (claim_C3_session_append.2.2.1 [] "sess" "user" " hi " (Or.inl rfl) (by decide)).1⟩

/-- C6: `get_recent_messages` returns the up-to-`limit` most recent
messages of the session in chronological order (a suffix of the log),
returns empty for `limit ≤ 0` (without touching the store) and for an
unknown session id (registering an empty log for it), and changes the
log of no session. -/
theorem claim_C6_recent_messages :
    (∀ (st : SessionStore) (sid : String) (limit : ℤ), limit ≤ 0 →
      get_recent_messages st sid limit = ([], st)) ∧
    (∀ (st : SessionStore) (sid : String) (limit : ℤ), 0 < limit →
      (get_recent_messages st sid limit).1 = lastN limit.toNat (sessionLog st sid) ∧
      (get_recent_messages st sid limit).1 <:+ sessionLog st sid ∧
      (get_recent_messages st sid limit).1.length =
        min limit.toNat (sessionLog st sid).length ∧
      (get_recent_messages st sid limit).2 = setdefaultEmpty st sid) ∧
    (∀ (st : SessionStore) (sid : String) (limit : ℤ), 0 < limit →
      lookupSession st sid = none →
      (get_recent_messages st sid limit).1 = [] ∧
      (get_recent_messages st sid limit).2 = st ++ [(sid, [])]) ∧
    (∀ (st : SessionStore) (sid s : String) (limit : ℤ), s ≠ sid →
      sessionLog ((get_recent_messages st sid limit).2) s = sessionLog st s) ∧
    (∀ (st : SessionStore) (sid : String) (limit : ℤ),
      sessionLog ((get_recent_messages st sid limit).2) sid = sessionLog st sid) := by
  have hfst : ∀ (st : SessionStore) (sid : String) (limit : ℤ), 0 < limit →
      (get_recent_messages st sid limit).1 = lastN limit.toNat (sessionLog st sid) ∧
      (get_recent_messages st sid limit).2 = setdefaultEmpty st sid := by
    intro st sid limit h
    simp only [get_recent_messages, if_neg (not_le.mpr h)]
    rw [lookupSession_setdefaultEmpty_self]
    simp only [Option.getD_some]
    exact ⟨rfl, trivial⟩
  refine ⟨?_, ?_, ?_, ?_, ?_⟩
  · intro st sid limit h
    unfold get_recent_messages
    rw [if_pos h]
  · intro st sid limit h
    obtain ⟨h1, h2⟩ := hfst st sid limit h
    refine ⟨h1, ?_, ?_, h2⟩
    · rw [h1]; exact lastN_suffix _ _
    · rw [h1]; exact length_lastN _ _
  · intro st sid limit h hnone
    obtain ⟨h1, h2⟩ := hfst st sid limit h
    have hlog : sessionLog st sid = [] := by
      unfold sessionLog; rw [hnone]; rfl
    constructor
    · rw [h1, hlog]
      unfold lastN
      simp
    · rw [h2]
      unfold setdefaultEmpty
      have : List.find? (fun p => p.1 == sid) st = none := by
        unfold lookupSession at hnone
        exact Option.map_eq_none'.mp hnone
      rw [this]
      rfl
  · intro st sid s limit h
    by_cases hl : limit ≤ 0
    · unfold get_recent_messages
      rw [if_pos hl]
    · obtain ⟨-, h2⟩ := hfst st sid limit (by omega)
      rw [h2]
      unfold sessionLog
      rw [lookupSession_setdefaultEmpty_other _ _ _ h]
  · intro st sid limit
    by_cases hl : limit ≤ 0
    · unfold get_recent_messages
      rw [if_pos hl]
    · obtain ⟨-, h2⟩ := hfst st sid limit (by omega)
      rw [h2]
      exact sessionLog_setdefaultEmpty_self st sid

theorem claim_C6_recent_messages_witness :
    get_recent_messages [] "s" 0 = ([], []) ∧
    ((get_recent_messages [] "s" 5).1 = [] ∧
      (get_recent_messages [] "s" 5).2 = [] ++ [("s", [])]) :=
  ⟨claim_C6_recent_messages.1 [] "s" 0 (by decide),
   claim_C6_recent_messages.2.2.1 [] "s" 5 (by decide) rfl⟩

/-- C7: `chunk_text` fails with a `ValueError` naming the offending
parameter whenever `chunk_size ≤ 0`, `overlap < 0` or
`overlap ≥ chunk_size` (these are the only failures), and an input whose
whitespace split is empty yields `[]` rather than an error. -/
theorem claim_C7_chunk_validation :
    (∀ (text : String) (cs ov : ℤ), cs ≤ 0 →
      chunk_text text cs ov = .error (.validation "chunk_size must be greater than 0")) ∧
    (∀ (text : String) (cs ov : ℤ), 0 < cs → ov < 0 →
      chunk_text text cs ov = .error (.validation "overlap must be greater than or equal to 0")) ∧
    (∀ (text : String) (cs ov : ℤ), 0 < cs → 0 ≤ ov → cs ≤ ov →
      chunk_text text cs ov = .error (.validation "overlap must be smaller than chunk_size")) ∧
    (∀ (text : String) (cs ov : ℤ),
      (∃ e, chunk_text text cs ov = .error e) ↔ (cs ≤ 0 ∨ ov < 0 ∨ cs ≤ ov)) ∧
    (∀ (text : String) (cs ov : ℤ), 0 < cs → 0 ≤ ov → ov < cs → pySplit text = [] →
      chunk_text text cs ov = .ok []) ∧
    chunk_text "" 10 2 = .ok [] ∧
    chunk_text "x" 5 5 = .error (.validation "overlap must be smaller than chunk_size") := by
  refine ⟨?_, ?_, ?_, ?_, ?_, by decide, by decide⟩
  · intro text cs ov h
    unfold chunk_text
    rw [if_pos h]
  · intro text cs ov h1 h2
    unfold chunk_text
    rw [if_neg (not_le.mpr h1), if_pos h2]
  · intro text cs ov h1 h2 h3
    unfold chunk_text
    rw [if_neg (not_le.mpr h1), if_neg (not_lt.mpr h2), if_pos h3]
  · intro text cs ov
    unfold chunk_text
    by_cases h1 : cs ≤ 0
    · simp [h1]
    · rw [if_neg h1]
      by_cases h2 : ov < 0
      · simp [h1, h2]
      · rw [if_neg h2]
        by_cases h3 : cs ≤ ov
        · simp [h1, h2, h3]
        · rw [if_neg h3]
          by_cases h4 : pySplit text = []
          · simp [h1, h2, h3, h4]
          · simp [h1, h2, h3, h4]
  · intro text cs ov h1 h2 h3 h4
    unfold chunk_text
    rw [if_neg (not_le.mpr h1), if_neg (not_lt.mpr h2), if_neg (not_le.mpr h3), if_pos h4]

theorem claim_C7_chunk_validation_witness :
    chunk_text "abc" 0 0 = .error (.validation "chunk_size must be greater than 0") ∧
    chunk_text "abc" 3 (-1) = .error (.validation "overlap must be greater than or equal to 0") ∧
    chunk_text "abc" 3 3 = .error (.validation "overlap must be smaller than chunk_size") ∧
    chunk_text "   " 4 1 = .ok [] :=
  ⟨claim_C7_chunk_validation.1 "abc" 0 0 (by decide),
   claim_C7_chunk_validation.2.1 "abc" 3 (-1) (by decide) (by decide),
   claim_C7_chunk_validation.2.2.1 "abc" 3 3 (by decide) (by decide) (by decide),
   claim_C7_chunk_validation.2.2.2.2.1 "   " 4 1 (by decide) (by decide) (by decide) (by decide)⟩

/-- C4: `cosine_similarity` returns 0.0 when either vector is empty and,
for vectors of equal length, when either norm is zero; it fails with a
dimension-mismatch error exactly when the two vectors have different
lengths and neither is empty. -/
theorem claim_C4_cosine_errors :
    (∀ a b : List ℚ, a = [] ∨ b = [] → cosine_similarity a b = .ok (SimScore.ofRat 0)) ∧
    (∀ a b : List ℚ, a.length = b.length → (normSq a = 0 ∨ normSq b = 0) →
      cosine_similarity a b = .ok (SimScore.ofRat 0)) ∧
    (∀ a b : List ℚ, cosine_similarity a b = .error .dimensionMismatch ↔
      (a.length ≠ b.length ∧ a ≠ [] ∧ b ≠ [])) ∧
    cosine_similarity [1, 2] [1, 2, 3] = .error .dimensionMismatch ∧
    cosine_similarity [] [1, 2] = .ok (SimScore.ofRat 0) := by
  refine ⟨?_, ?_, ?_, rfl, rfl⟩
  · intro a b h
    unfold cosine_similarity
    rw [if_pos ?_]
    rcases h with h | h <;> simp [h]
  · intro a b hlen hz
    unfold cosine_similarity
    by_cases h1 : a.length = 0 ∨ b.length = 0
    · rw [if_pos h1]
    · rw [if_neg h1, if_neg (fun hc => hc hlen)]
      have h3 : normSq a * normSq b = 0 := by
        rcases hz with h | h <;> simp [h]
      rw [dif_pos h3]
  · intro a b
    unfold cosine_similarity
    by_cases h1 : a.length = 0 ∨ b.length = 0
    · rw [if_pos h1]
      rw [List.length_eq_zero, List.length_eq_zero] at h1
      constructor
      · intro h; cases h
      · intro ⟨h2, h3, h4⟩
        rcases h1 with h | h
        · exact absurd h h3
        · exact absurd h h4
    · rw [if_neg h1]
      push_neg at h1
      have ha : a ≠ [] := fun hc => h1.1 (by rw [hc]; rfl)
      have hb : b ≠ [] := fun hc => h1.2 (by rw [hc]; rfl)
      by_cases h2 : a.length ≠ b.length
      · rw [if_pos h2]
        exact ⟨fun _ => ⟨h2, ha, hb⟩, fun _ => rfl⟩
      · rw [if_neg h2]
        constructor
        · intro h
          by_cases h3 : normSq a * normSq b = 0
          · rw [dif_pos h3] at h; cases h
          · rw [dif_neg h3] at h; cases h
        · intro ⟨h3, _, _⟩
          exact absurd h3 h2

theorem claim_C4_cosine_errors_witness :
    cosine_similarity [0] [3] = .ok (SimScore.ofRat 0) ∧
    cosine_similarity [2, 3] [1] = .error .dimensionMismatch :=
  ⟨claim_C4_cosine_errors.2.1 [0] [3] rfl (Or.inl (by norm_num [normSq])),
   (claim_C4_cosine_errors.2.2.1 [2, 3] [1]).mpr ⟨by decide, by decide, by decide⟩⟩

/-! Section: Chunking lemmas -/

theorem pySplit_mem_ne_empty (text : String) : ∀ w ∈ pySplit text, w ≠ "" := by
  intro w hw
  unfold pySplit at hw
  have := List.mem_filter.mp hw
  simpa using this.2

theorem intercalate_go_exists (s : String) :
    ∀ (l : List String) (acc : String), ∃ t, String.intercalate.go acc s l = acc ++ t := by
  intro l
  induction l with
  | nil =>
    intro acc
    refine ⟨"", ?_⟩
    show acc = acc ++ ""
    apply String.ext
    simp [String.append]
  | cons a as ih =>
    intro acc
    obtain ⟨t, ht⟩ := ih (acc ++ s ++ a)
    refine ⟨s ++ a ++ t, ?_⟩
    show String.intercalate.go acc s (a :: as) = acc ++ (s ++ a ++ t)
    rw [String.intercalate.go, ht, String.append_assoc acc s a,
      String.append_assoc acc (s ++ a) t]

theorem intercalate_ne_empty (s w : String) (rest : List String) (hw : w ≠ "") :
    String.intercalate s (w :: rest) ≠ "" := by
  obtain ⟨t, ht⟩ := intercalate_go_exists s rest w
  show String.intercalate s (w :: rest) ≠ ""
  rw [String.intercalate, ht]
  intro hc
  have hlen : (w ++ t).length = 0 := by rw [hc]; rfl
  rw [String.length_append] at hlen
  apply hw
  have hw0 : w.length = 0 := by omega
  cases w with
  | mk d =>
    have hd : d.length = 0 := hw0
    rw [List.length_eq_zero] at hd
    rw [hd]

theorem chunkLoop_cons (words : List String) (size : ℕ) (start : ℕ) (rest : List ℕ) :
    chunkLoop words size (start :: rest) =
      (if (words.drop start).take size = [] then []
       else String.intercalate " " ((words.drop start).take size) ::
         (if words.length ≤ start + size then [] else chunkLoop words size rest)) := rfl

/-- Characterization of the chunking loop on the index ranges Python
produces: some positive number `N ≤ m` of windows is emitted, the
windows start at `s, s + step, s + 2·step, …`, every window but the
last ends strictly inside the word list, and the last window reaches or
passes the end while starting inside the list. -/
theorem chunkLoop_spec (words : List String) (size step : ℕ)
    (hsize : 0 < size) (hstep : 0 < step) (hss : step ≤ size) :
    ∀ (m s : ℕ), s < words.length → words.length ≤ s + step * m →
    ∃ N, 0 < N ∧ N ≤ m ∧
      chunkLoop words size (List.range' s m step) =
        (List.range N).map (fun i =>
          String.intercalate " " ((words.drop (s + i * step)).take size)) ∧
      (∀ i, i + 1 < N → s + i * step + size < words.length) ∧
      words.length ≤ s + (N - 1) * step + size ∧
      s + (N - 1) * step < words.length := by
  intro m
  induction m with
  | zero =>
    intro s h1 h2
    rw [Nat.mul_zero] at h2
    omega
  | succ m ih =>
    intro s h1 h2
    rw [List.range'_succ]
    have hwnil : (words.drop s).take size ≠ [] := by
      rw [Ne, List.take_eq_nil_iff]
      push_neg
      refine ⟨by omega, ?_⟩
      rw [Ne, List.drop_eq_nil_iff]
      omega
    by_cases hend : words.length ≤ s + size
    · refine ⟨1, one_pos, by omega, ?_, by intro i hi; omega, by simpa, by simpa⟩
      rw [chunkLoop_cons, if_neg hwnil, if_pos hend]
      rw [show List.range 1 = [0] from rfl, List.map_cons, List.map_nil]
      norm_num
    · push_neg at hend
      have hcov2 : words.length ≤ (s + step) + step * m := by
        rw [Nat.mul_succ] at h2
        omega
      have hs2' : s + step < words.length := by omega
      obtain ⟨N, hN0, hNm, hout, hmid, hlast, hlt⟩ := ih (s + step) hs2' hcov2
      have hNe : N - 1 + 1 = N := by omega
      have emul : ∀ j : ℕ, s + (j + 1) * step = s + step + j * step := by
        intro j
        rw [Nat.succ_mul]
        omega
      refine ⟨N + 1, by omega, by omega, ?_, ?_, ?_, ?_⟩
      · rw [chunkLoop_cons, if_neg hwnil, if_neg (not_le.mpr hend), hout, List.range_succ_eq_map,
          List.map_cons, List.map_map]
        refine congrArg₂ List.cons (by simp) ?_
        apply List.map_congr_left
        intro i _
        show String.intercalate " " ((words.drop (s + step + i * step)).take size) =
          String.intercalate " " ((words.drop (s + (i + 1) * step)).take size)
        rw [emul i]
      · intro i hi
        cases i with
        | zero => simpa using hend
        | succ j =>
          have hj := hmid j (by omega)
          rw [emul j]
          omega
      · have h' := hlast
        simp only [Nat.add_sub_cancel]
        calc words.length ≤ s + step + (N - 1) * step + size := h'
        _ = s + (N - 1 + 1) * step + size := by rw [emul (N - 1)]
        _ = s + N * step + size := by rw [hNe]
      · simp only [Nat.add_sub_cancel]
        calc s + N * step = s + (N - 1 + 1) * step := by rw [hNe]
        _ = s + step + (N - 1) * step := emul (N - 1)
        _ < words.length := hlt

/-- C2: for valid parameters, `chunk_text` splits the text into
whitespace words and emits the space-joined windows of up to
`chunk_size` words starting at `0, step, 2·step, …` with
`step = chunk_size - overlap`, stopping with the window whose end
reaches the word count; every word is covered by some window, the final
window ends exactly at the last word, no emitted chunk is empty, and
each pair of consecutive windows shares exactly `overlap` words
(the trailing `overlap` words of one window are the leading `overlap`
words of the next). -/
theorem claim_C2_chunking :
    (∀ (text : String) (cs ov : ℤ), 0 < cs → 0 ≤ ov → ov < cs → pySplit text ≠ [] →
      ∃ N : ℕ, 0 < N ∧
        chunk_text text cs ov = .ok ((List.range N).map (fun i =>
          String.intercalate " "
            (((pySplit text).drop (i * (cs.toNat - ov.toNat))).take cs.toNat))) ∧
        (∀ i, i + 1 < N →
          i * (cs.toNat - ov.toNat) + cs.toNat < (pySplit text).length) ∧
        (pySplit text).length ≤ (N - 1) * (cs.toNat - ov.toNat) + cs.toNat ∧
        (∀ j, j < (pySplit text).length → ∃ i, i < N ∧
          i * (cs.toNat - ov.toNat) ≤ j ∧ j < i * (cs.toNat - ov.toNat) + cs.toNat) ∧
        ((pySplit text).drop ((N - 1) * (cs.toNat - ov.toNat))).take cs.toNat =
          (pySplit text).drop ((N - 1) * (cs.toNat - ov.toNat)) ∧
        (∀ i, i < N →
          String.intercalate " "
            (((pySplit text).drop (i * (cs.toNat - ov.toNat))).take cs.toNat) ≠ "") ∧
        (∀ i, i + 1 < N →
          (((pySplit text).drop ((i + 1) * (cs.toNat - ov.toNat))).take cs.toNat).take ov.toNat
            = (((pySplit text).drop (i * (cs.toNat - ov.toNat))).take cs.toNat).drop
                (cs.toNat - ov.toNat) ∧
          ((((pySplit text).drop (i * (cs.toNat - ov.toNat))).take cs.toNat).drop
              (cs.toNat - ov.toNat)).length = ov.toNat)) ∧
    chunk_text "a b c d e" 2 1 = .ok ["a b", "b c", "c d", "d e"] := by
  constructor
  · intro text cs ov h1 h2 h3 hw
    have hsize : 0 < cs.toNat := by omega
    have hstep : 0 < cs.toNat - ov.toNat := by omega
    have hss : cs.toNat - ov.toNat ≤ cs.toNat := by omega
    have hn : 0 < (pySplit text).length := List.length_pos.mpr hw
    have hdm := Nat.div_add_mod ((pySplit text).length + (cs.toNat - ov.toNat) - 1)
      (cs.toNat - ov.toNat)
    have hmod := Nat.mod_lt ((pySplit text).length + (cs.toNat - ov.toNat) - 1) hstep
    have hcov : (pySplit text).length ≤ 0 + (cs.toNat - ov.toNat) *
        (((pySplit text).length + (cs.toNat - ov.toNat) - 1) / (cs.toNat - ov.toNat)) := by
      omega
    obtain ⟨N, hN0, hNm, hout, hmid, hlast, hlt⟩ :=
      chunkLoop_spec (pySplit text) cs.toNat (cs.toNat - ov.toNat) hsize hstep hss
        (((pySplit text).length + (cs.toNat - ov.toNat) - 1) / (cs.toNat - ov.toNat)) 0 hn hcov
    simp only [Nat.zero_add] at hout hmid hlast hlt
    have hchunk : chunk_text text cs ov = .ok (chunkLoop (pySplit text) cs.toNat
        (List.range' 0 (((pySplit text).length + (cs.toNat - ov.toNat) - 1) /
          (cs.toNat - ov.toNat)) (cs.toNat - ov.toNat))) := by
      simp only [chunk_text, pyRange]
      rw [if_neg (not_le.mpr h1), if_neg (not_lt.mpr h2), if_neg (not_le.mpr h3), if_neg hw]
    have hienl : ∀ i, i < N → i * (cs.toNat - ov.toNat) < (pySplit text).length := by
      intro i hi
      have h1' : i * (cs.toNat - ov.toNat) ≤ (N - 1) * (cs.toNat - ov.toNat) :=
        Nat.mul_le_mul_right _ (by omega)
      omega
    refine ⟨N, hN0, ?_, ?_, ?_, ?_, ?_, ?_, ?_⟩
    · rw [hchunk, hout]
    · intro i hi
      have := hmid i hi
      omega
    · omega
    · intro j hj
      by_cases hc : j / (cs.toNat - ov.toNat) ≤ N - 1
      · refine ⟨j / (cs.toNat - ov.toNat), by omega, Nat.div_mul_le_self j _, ?_⟩
        have hdm2 := Nat.div_add_mod j (cs.toNat - ov.toNat)
        have hml := Nat.mod_lt j hstep
        rw [Nat.mul_comm] at hdm2
        omega
      · push_neg at hc
        refine ⟨N - 1, by omega, ?_, by omega⟩
        have h1' : (N - 1) * (cs.toNat - ov.toNat) ≤
            (j / (cs.toNat - ov.toNat)) * (cs.toNat - ov.toNat) :=
          Nat.mul_le_mul_right _ (by omega)
        have h2' := Nat.div_mul_le_self j (cs.toNat - ov.toNat)
        omega
    · apply List.take_of_length_le
      rw [List.length_drop]
      omega
    · intro i hi
      have hlti := hienl i hi
      have hwnil : ((pySplit text).drop (i * (cs.toNat - ov.toNat))).take cs.toNat ≠ [] := by
        rw [Ne, List.take_eq_nil_iff]
        push_neg
        refine ⟨by omega, ?_⟩
        rw [Ne, List.drop_eq_nil_iff]
        omega
      obtain ⟨w, rest, hwr⟩ := List.exists_cons_of_ne_nil hwnil
      rw [hwr]
      apply intercalate_ne_empty
      apply pySplit_mem_ne_empty text
      have hmem : w ∈ ((pySplit text).drop (i * (cs.toNat - ov.toNat))).take cs.toNat := by
        rw [hwr]; exact List.mem_cons_self _ _
      exact List.drop_subset _ _ (List.take_subset _ _ hmem)
    · intro i hi
      have hfull := hmid i hi
      constructor
      · rw [List.drop_take, List.drop_drop]
        have e1 : cs.toNat - (cs.toNat - ov.toNat) = ov.toNat := by omega
        rw [e1]
        rw [List.take_take]
        have e2 : min ov.toNat cs.toNat = ov.toNat := by omega
        rw [e2]
        have e3 : (i + 1) * (cs.toNat - ov.toNat) =
            i * (cs.toNat - ov.toNat) + (cs.toNat - ov.toNat) := by
          rw [Nat.succ_mul]
        rw [e3]
      · simp only [List.length_drop, List.length_take]
        rw [Nat.min_eq_left
          (by omega : cs.toNat ≤ ((pySplit text).length - i * (cs.toNat - ov.toNat)))]
        omega
  · decide

theorem itemLE_trans : ∀ a b c : RetrievedItem, itemLE a b → itemLE b c → itemLE a c :=
  fun _ _ _ hab hbc => SimScore.le_trans hbc hab

theorem itemLE_total : ∀ a b : RetrievedItem, itemLE a b || itemLE b a :=
  fun a b => SimScore.le_total b.similarity a.similarity

/-- Characterization of the loop body: an entry contributes an item iff
it is a dict with a nonempty list vector whose similarity computation
succeeds with a score not below the threshold. -/
theorem rankEntry_eq_some (q : List ℚ) (thr : ℚ) (doc : Document) (it : RetrievedItem) :
    rankEntry q thr doc = some it ↔
      doc.isDict = true ∧ ∃ v, doc.vector = .vec v ∧ v ≠ [] ∧
        ∃ score, cosine_similarity q v = .ok score ∧
          SimScore.lt score (SimScore.ofRat thr) = false ∧
          it = ⟨doc.content.getD "", v, score⟩ := by
  obtain ⟨d, vec, cont⟩ := doc
  cases d
  · simp [rankEntry]
  · cases vec with
    | absent => simp [rankEntry]
    | malformed => simp [rankEntry]
    | vec v =>
      by_cases hv : v = []
      · simp [rankEntry, hv]
      · cases hcs : cosine_similarity q v with
        | error e =>
          simp [rankEntry, hv, hcs]
        | ok score =>
          cases hlt : SimScore.lt score (SimScore.ofRat thr) with
          | true => simp [rankEntry, hv, hcs, hlt]
          | false =>
            simp only [rankEntry]
            simp [hcs, hlt]
            intro _
            exact ⟨fun h => h.symm, fun h => h.symm⟩

theorem badDocument_rankEntry_none (q : List ℚ) (thr : ℚ) (doc : Document)
    (h : badDocument q doc) : rankEntry q thr doc = none := by
  obtain ⟨d, vec, cont⟩ := doc
  rcases h with h | h | h | ⟨v, hv, hbad⟩
  · simp only at h
    rw [h]
    simp [rankEntry]
  · simp only at h
    rw [h]
    simp [rankEntry]
  · simp only at h
    rw [h]
    simp [rankEntry]
  · simp only at hv
    rw [hv]
    rcases hbad with h | ⟨e, he⟩
    · simp [rankEntry, h]
    · by_cases hve : v = [] <;> simp [rankEntry, he, hve]

/-- Stability of the sort on an equivalence class: filtering the sorted
list by a class of mutually tied elements gives exactly the filtered
input, in input order. -/
theorem mergeSort_filter_eqclass {α : Type} (le : α → α → Bool)
    (htrans : ∀ a b c, le a b → le b c → le a c)
    (htotal : ∀ a b, le a b || le b a)
    (p : α → Bool) (hp : ∀ a b, p a → p b → le a b)
    (l : List α) : (l.mergeSort le).filter p = l.filter p := by
  have hpw : (l.filter p).Pairwise (fun a b => le a b) := by
    apply List.pairwise_of_forall_mem_list
    intro a ha b hb
    exact hp a b (List.mem_filter.mp ha).2 (List.mem_filter.mp hb).2
  have hsub : List.Sublist (l.filter p) (l.mergeSort le) :=
    List.sublist_mergeSort htrans htotal hpw (List.filter_sublist l)
  have hsub2 : List.Sublist (l.filter p) ((l.mergeSort le).filter p) := by
    have h1 := hsub.filter p
    rwa [List.filter_eq_self.mpr (fun a ha => (List.mem_filter.mp ha).2)] at h1
  have hperm : List.Perm ((l.mergeSort le).filter p) (l.filter p) :=
    (List.mergeSort_perm l le).filter p
  exact (hsub2.eq_of_length hperm.length_eq.symm).symm

theorem retrieve_top_k_eq (q : List ℚ) (docs : List Document) (k : ℤ) (thr : ℚ)
    (hk : ¬k ≤ 0) (hd : docs ≠ []) :
    retrieve_top_k q docs k thr =
      ((rankedEntries q docs thr).mergeSort itemLE).take k.toNat := by
  unfold retrieve_top_k
  rw [if_neg hk, if_neg hd]

/-- C1: `retrieve_top_k` returns at most `k` items, each scoring at or
above the threshold; the result is sorted by similarity in descending
order of real value; ties keep the relative order in which the scored
entries appeared in the input (the class of any fixed score is a
sublist of the scored-entry list); and the worked example with scores
`0.6 / 0.9 / 0.75`, threshold `0.7`, `k = 2` returns the `0.9` and
`0.75` items in that order. -/
theorem claim_C1_retrieval :
    (∀ (q : List ℚ) (docs : List Document) (k : ℤ) (thr : ℚ),
      (retrieve_top_k q docs k thr).length ≤ k.toNat ∧
      (∀ it ∈ retrieve_top_k q docs k thr, (thr : ℝ) ≤ it.similarity.val) ∧
      (retrieve_top_k q docs k thr).Pairwise
        (fun x y => y.similarity.val ≤ x.similarity.val) ∧
      (∀ s : SimScore, List.Sublist
        ((retrieve_top_k q docs k thr).filter (fun it => SimScore.equiv it.similarity s))
        ((rankedEntries q docs thr).filter (fun it => SimScore.equiv it.similarity s)))) ∧
    (retrieve_top_k [10, 0, 0, 0, 0] exampleDocs 2 (7/10)).map (fun it => it.content) =
      ["doc09", "doc075"] ∧
    (retrieve_top_k [10, 0, 0, 0, 0] exampleDocs 2 (7/10)).map
      (fun it => it.similarity.val) = [(9/10 : ℝ), (3/4 : ℝ)] ∧
    (∀ (q : List ℚ) (thr : ℚ) (doc : Document) (v : List ℚ) (score : SimScore),
      doc.isDict = true → doc.vector = .vec v → v ≠ [] →
      cosine_similarity q v = .ok score →
      ((thr : ℝ) ≤ score.val →
        rankEntry q thr doc = some ⟨doc.content.getD "", v, score⟩) ∧
      (score.val < (thr : ℝ) → rankEntry q thr doc = none)) ∧
    (retrieve_top_k [10, 0, 0, 0, 0]
        (exampleDocs ++ [⟨true, .vec [7, 7, 1, 1, 0], some "doc07"⟩]) 4 (7/10)).map
      (fun it => it.content) = ["doc09", "doc075", "doc07"] := by
  have hmain : ∀ (q : List ℚ) (docs : List Document) (k : ℤ) (thr : ℚ),
      (retrieve_top_k q docs k thr).length ≤ k.toNat ∧
      (∀ it ∈ retrieve_top_k q docs k thr, (thr : ℝ) ≤ it.similarity.val) ∧
      (retrieve_top_k q docs k thr).Pairwise
        (fun x y => y.similarity.val ≤ x.similarity.val) ∧
      (∀ s : SimScore, List.Sublist
        ((retrieve_top_k q docs k thr).filter (fun it => SimScore.equiv it.similarity s))
        ((rankedEntries q docs thr).filter (fun it => SimScore.equiv it.similarity s))) := by
    intro q docs k thr
    by_cases hk : k ≤ 0
    · unfold retrieve_top_k
      rw [if_pos hk]
      exact ⟨by simp, by simp, by simp, fun s => List.nil_sublist _⟩
    by_cases hd : docs = []
    · unfold retrieve_top_k
      rw [if_neg hk, if_pos hd]
      exact ⟨by simp, by simp, by simp, fun s => List.nil_sublist _⟩
    rw [retrieve_top_k_eq q docs k thr hk hd]
    refine ⟨?_, ?_, ?_, ?_⟩
    · rw [List.length_take]
      exact Nat.min_le_left _ _
    · intro it hit
      have hmem : it ∈ (rankedEntries q docs thr).mergeSort itemLE :=
        List.take_subset _ _ hit
      rw [List.mem_mergeSort] at hmem
      obtain ⟨doc, hdoc, hr⟩ := List.mem_filterMap.mp hmem
      obtain ⟨-, v, -, -, score, -, hlt, hit'⟩ := (rankEntry_eq_some q thr doc it).mp hr
      have hle : SimScore.le (SimScore.ofRat thr) it.similarity = true := by
        rw [hit']
        unfold SimScore.lt at hlt
        simpa using hlt
      have := (SimScore.le_iff_val _ _).mp hle
      rwa [SimScore.ofRat_val] at this
    · have hsorted : ((rankedEntries q docs thr).mergeSort itemLE).Pairwise
          (fun x y => itemLE x y) :=
        List.sorted_mergeSort itemLE_trans itemLE_total (rankedEntries q docs thr)
      have htake := hsorted.sublist (List.take_sublist k.toNat _)
      exact htake.imp (fun h => (SimScore.le_iff_val _ _).mp h)
    · intro s
      have h1 : List.Sublist (((rankedEntries q docs thr).mergeSort itemLE).take k.toNat)
          ((rankedEntries q docs thr).mergeSort itemLE) := List.take_sublist _ _
      have h2 := h1.filter (fun it => SimScore.equiv it.similarity s)
      rwa [mergeSort_filter_eqclass itemLE itemLE_trans itemLE_total _
        (fun a b ha hb => ?_) (rankedEntries q docs thr)] at h2
      have hva := (SimScore.equiv_iff_val _ _).mp ha
      have hvb := (SimScore.equiv_iff_val _ _).mp hb
      exact (SimScore.le_iff_val _ _).mpr (le_of_eq (hvb.trans hva.symm))
  have e6 : rankEntry [10, 0, 0, 0, 0] (7/10 : ℚ)
      ⟨true, .vec [6, 8, 0, 0, 0], some "doc06"⟩ = none := by
    norm_num [rankEntry, cosine_similarity, dot, normSq, SimScore.lt, SimScore.le,
      SimScore.ofRat]
  have e9 : rankEntry [10, 0, 0, 0, 0] (7/10 : ℚ)
      ⟨true, .vec [9, 3, 3, 1, 0], some "doc09"⟩ =
      some ⟨"doc09", [9, 3, 3, 1, 0], ⟨90, 10000, by norm_num⟩⟩ := by
    norm_num [rankEntry, cosine_similarity, dot, normSq, SimScore.lt, SimScore.le,
      SimScore.ofRat]
    intro h
    simp at h
  have e75 : rankEntry [10, 0, 0, 0, 0] (7/10 : ℚ)
      ⟨true, .vec [15/2, 13/2, 1, 1/2, 1/2], some "doc075"⟩ =
      some ⟨"doc075", [15/2, 13/2, 1, 1/2, 1/2], ⟨75, 10000, by norm_num⟩⟩ := by
    norm_num [rankEntry, cosine_similarity, dot, normSq, SimScore.lt, SimScore.le,
      SimScore.ofRat]
    intro h
    simp at h
  have hranked : rankedEntries [10, 0, 0, 0, 0] exampleDocs (7/10) =
      [⟨"doc09", [9, 3, 3, 1, 0], ⟨90, 10000, by norm_num⟩⟩,
       ⟨"doc075", [15/2, 13/2, 1, 1/2, 1/2], ⟨75, 10000, by norm_num⟩⟩] := by
    unfold rankedEntries exampleDocs
    rw [List.filterMap_cons, List.filterMap_cons, List.filterMap_cons]
    rw [e6, e9, e75]
    rfl
  have hsorted2 : List.Pairwise (fun x y => itemLE x y)
      ([⟨"doc09", [9, 3, 3, 1, 0], ⟨90, 10000, by norm_num⟩⟩,
        ⟨"doc075", [15/2, 13/2, 1, 1/2, 1/2], ⟨75, 10000, by norm_num⟩⟩] :
        List RetrievedItem) := by
    refine List.pairwise_cons.mpr ⟨?_, List.pairwise_singleton _ _⟩
    intro b hb
    rw [List.mem_singleton] at hb
    rw [hb]
    norm_num [itemLE, SimScore.le]
  have hret : retrieve_top_k [10, 0, 0, 0, 0] exampleDocs 2 (7/10) =
      [⟨"doc09", [9, 3, 3, 1, 0], ⟨90, 10000, by norm_num⟩⟩,
       ⟨"doc075", [15/2, 13/2, 1, 1/2, 1/2], ⟨75, 10000, by norm_num⟩⟩] := by
    rw [retrieve_top_k_eq _ _ _ _ (by norm_num) (by simp [exampleDocs]), hranked,
      List.mergeSort_of_sorted hsorted2]
    rfl
  have hboundary : ∀ (q : List ℚ) (thr : ℚ) (doc : Document) (v : List ℚ) (score : SimScore),
      doc.isDict = true → doc.vector = .vec v → v ≠ [] →
      cosine_similarity q v = .ok score →
      ((thr : ℝ) ≤ score.val →
        rankEntry q thr doc = some ⟨doc.content.getD "", v, score⟩) ∧
      (score.val < (thr : ℝ) → rankEntry q thr doc = none) := by
    intro q thr doc v score hdict hvec hv hcs
    obtain ⟨d, dvec, dcont⟩ := doc
    simp only at hdict
    simp only at hvec
    subst hdict
    subst hvec
    constructor
    · intro hge
      have hlt : ¬(SimScore.lt score (SimScore.ofRat thr) = true) := by
        rw [SimScore.lt_iff_val, SimScore.ofRat_val]
        exact not_lt.mpr hge
      simp [rankEntry, hv, hcs, hlt]
    · intro hltv
      have hlt : SimScore.lt score (SimScore.ofRat thr) = true := by
        rw [SimScore.lt_iff_val, SimScore.ofRat_val]
        exact hltv
      simp [rankEntry, hv, hcs, hlt]
  have e7 : rankEntry [10, 0, 0, 0, 0] (7/10 : ℚ)
      ⟨true, .vec [7, 7, 1, 1, 0], some "doc07"⟩ =
      some ⟨"doc07", [7, 7, 1, 1, 0], ⟨70, 10000, by norm_num⟩⟩ := by
    norm_num [rankEntry, cosine_similarity, dot, normSq, SimScore.lt, SimScore.le,
      SimScore.ofRat]
    intro h
    simp at h
  have hrankedB : rankedEntries [10, 0, 0, 0, 0]
      (exampleDocs ++ [⟨true, .vec [7, 7, 1, 1, 0], some "doc07"⟩]) (7/10) =
      [⟨"doc09", [9, 3, 3, 1, 0], ⟨90, 10000, by norm_num⟩⟩,
       ⟨"doc075", [15/2, 13/2, 1, 1/2, 1/2], ⟨75, 10000, by norm_num⟩⟩,
       ⟨"doc07", [7, 7, 1, 1, 0], ⟨70, 10000, by norm_num⟩⟩] := by
    unfold rankedEntries exampleDocs
    simp only [List.cons_append, List.nil_append]
    rw [List.filterMap_cons, List.filterMap_cons, List.filterMap_cons, List.filterMap_cons]
    rw [e6, e9, e75, e7]
    rfl
  have hsorted3 : List.Pairwise (fun x y => itemLE x y)
      ([⟨"doc09", [9, 3, 3, 1, 0], ⟨90, 10000, by norm_num⟩⟩,
        ⟨"doc075", [15/2, 13/2, 1, 1/2, 1/2], ⟨75, 10000, by norm_num⟩⟩,
        ⟨"doc07", [7, 7, 1, 1, 0], ⟨70, 10000, by norm_num⟩⟩] :
        List RetrievedItem) := by
    refine List.pairwise_cons.mpr ⟨?_, List.pairwise_cons.mpr
      ⟨?_, List.pairwise_singleton _ _⟩⟩
    · intro b hb
      simp only [List.mem_cons, List.mem_singleton, List.not_mem_nil, or_false] at hb
      rcases hb with hb | hb <;> rw [hb] <;> norm_num [itemLE, SimScore.le]
    · intro b hb
      simp only [List.mem_singleton] at hb
      rw [hb]
      norm_num [itemLE, SimScore.le]
  have hretB : retrieve_top_k [10, 0, 0, 0, 0]
      (exampleDocs ++ [⟨true, .vec [7, 7, 1, 1, 0], some "doc07"⟩]) 4 (7/10) =
      [⟨"doc09", [9, 3, 3, 1, 0], ⟨90, 10000, by norm_num⟩⟩,
       ⟨"doc075", [15/2, 13/2, 1, 1/2, 1/2], ⟨75, 10000, by norm_num⟩⟩,
       ⟨"doc07", [7, 7, 1, 1, 0], ⟨70, 10000, by norm_num⟩⟩] := by
    rw [retrieve_top_k_eq _ _ _ _ (by norm_num) (by simp [exampleDocs]), hrankedB,
      List.mergeSort_of_sorted hsorted3]
    rfl
  refine ⟨hmain, ?_, ?_, hboundary, ?_⟩
  · rw [hret]
    rfl
  · rw [hret]
    simp only [List.map_cons, List.map_nil, SimScore.val, List.cons.injEq]
    have hsq : Real.sqrt (((10000 : ℚ) : ℝ)) = 100 := by
      rw [show (((10000 : ℚ)) : ℝ) = (100 : ℝ) ^ 2 by norm_num]
      exact Real.sqrt_sq (by norm_num)
    rw [hsq]
    norm_num
  · rw [hretB]
    rfl

theorem claim_C1_retrieval_witness :
    (retrieve_top_k [10, 0, 0, 0, 0] exampleDocs 2 (7/10)).length ≤ (2 : ℤ).toNat ∧
    List.Sublist
      ((retrieve_top_k [10, 0, 0, 0, 0] exampleDocs 2 (7/10)).filter
        (fun it => SimScore.equiv it.similarity (SimScore.ofRat 1)))
      ((rankedEntries [10, 0, 0, 0, 0] exampleDocs (7/10)).filter
        (fun it => SimScore.equiv it.similarity (SimScore.ofRat 1))) ∧
    rankEntry [10, 0, 0, 0, 0] (7/10 : ℚ) ⟨true, .vec [7, 7, 1, 1, 0], some "doc07"⟩ =
      some ⟨"doc07", [7, 7, 1, 1, 0], ⟨70, 10000, by norm_num⟩⟩ := by
  refine ⟨(claim_C1_retrieval.1 [10, 0, 0, 0, 0] exampleDocs 2 (7/10)).1,
    (claim_C1_retrieval.1 [10, 0, 0, 0, 0] exampleDocs 2 (7/10)).2.2.2 (SimScore.ofRat 1), ?_⟩
  have hcs : cosine_similarity [10, 0, 0, 0, 0] [7, 7, 1, 1, 0] =
      .ok ⟨70, 10000, by norm_num⟩ := by
    norm_num [cosine_similarity, dot, normSq]
  have hval : ((7/10 : ℚ) : ℝ) ≤ (SimScore.mk 70 10000 (by norm_num)).val := by
    show ((7/10 : ℚ) : ℝ) ≤ ((70 : ℚ) : ℝ) / Real.sqrt (((10000 : ℚ) : ℝ))
    have hsq : Real.sqrt (((10000 : ℚ) : ℝ)) = 100 := by
      rw [show (((10000 : ℚ)) : ℝ) = (100 : ℝ) ^ 2 by norm_num]
      exact Real.sqrt_sq (by norm_num)
    rw [hsq]
    norm_num
  exact (claim_C1_retrieval.2.2.2.1 [10, 0, 0, 0, 0] (7/10)
    ⟨true, .vec [7, 7, 1, 1, 0], some "doc07"⟩ [7, 7, 1, 1, 0]
    ⟨70, 10000, by norm_num⟩ rfl rfl (by decide) hcs).1 hval

theorem claim_C2_chunking_witness :
    (0 : ℤ) < 2 ∧ (0 : ℤ) ≤ 1 ∧ (1 : ℤ) < 2 ∧ pySplit "a b c d e" ≠ [] ∧
    chunk_text "a b c d e" 2 1 = .ok ["a b", "b c", "c d", "d e"] := by
  refine ⟨by decide, by decide, by decide, by decide, ?_⟩
  have _h := claim_C2_chunking.1 "a b c d e" 2 1 (by decide) (by decide) (by decide) (by decide)
  exact claim_C2_chunking.2

/-- C5: `retrieve_top_k` returns the empty list when `k ≤ 0` or the
store is empty, and a malformed entry (non-object, missing vector,
non-list vector, empty vector, or one whose similarity computation
raises) is silently skipped: removing it from the store does not change
the result at all. -/
theorem claim_C5_retrieval_errors :
    (∀ (q : List ℚ) (k : ℤ) (thr : ℚ), retrieve_top_k q [] k thr = []) ∧
    (∀ (q : List ℚ) (docs : List Document) (k : ℤ) (thr : ℚ), k ≤ 0 →
      retrieve_top_k q docs k thr = []) ∧
    (∀ (q : List ℚ) (docs1 docs2 : List Document) (k : ℤ) (thr : ℚ) (bad : Document),
      badDocument q bad →
      retrieve_top_k q (docs1 ++ bad :: docs2) k thr =
        retrieve_top_k q (docs1 ++ docs2) k thr) := by
  refine ⟨?_, ?_, ?_⟩
  · intro q k thr
    unfold retrieve_top_k
    by_cases hk : k ≤ 0
    · rw [if_pos hk]
    · rw [if_neg hk, if_pos rfl]
  · intro q docs k thr hk
    unfold retrieve_top_k
    rw [if_pos hk]
  · intro q docs1 docs2 k thr bad hbad
    have hskip := badDocument_rankEntry_none q thr bad
    have hre : ∀ t : ℚ, rankedEntries q (docs1 ++ bad :: docs2) t =
        rankedEntries q (docs1 ++ docs2) t := by
      intro t
      unfold rankedEntries
      rw [List.filterMap_append, List.filterMap_append, List.filterMap_cons,
        badDocument_rankEntry_none q t bad hbad]
    by_cases hk : k ≤ 0
    · unfold retrieve_top_k
      rw [if_pos hk, if_pos hk]
    · by_cases hd : docs1 ++ docs2 = []
      · rw [retrieve_top_k_eq q _ k thr hk (by simp), hre, hd]
        unfold retrieve_top_k rankedEntries
        rw [if_neg hk, if_pos rfl]
        simp
      · rw [retrieve_top_k_eq q _ k thr hk (by simp), retrieve_top_k_eq q _ k thr hk hd, hre]

theorem claim_C5_retrieval_errors_witness :
    retrieve_top_k [1, 2, 3]
        ([] ++ (⟨true, .vec [1, 2], some "bad"⟩ : Document) :: []) 3 (7/10) =
      retrieve_top_k [1, 2, 3] ([] ++ []) 3 (7/10) :=
  claim_C5_retrieval_errors.2.2 [1, 2, 3] [] [] 3 (7/10) ⟨true, .vec [1, 2], some "bad"⟩
    (Or.inr (Or.inr (Or.inr ⟨[1, 2], rfl, Or.inr ⟨.dimensionMismatch, by decide⟩⟩)))

theorem format_history_lines (history : List Message) (hh : history ≠ []) :
    format_history history =
      (if renderedHistoryLines history = [] then "No prior history."
       else String.intercalate "\n" (renderedHistoryLines history)) := by
  unfold format_history renderedHistoryLines
  rw [if_neg hh]

/-- C8: `_build_prompt` is the deterministic concatenation of the fixed
instruction preamble (which contains the fallback token), the contents
of the retrieved items in order separated by blank lines, the formatted
history (role-tagged lines with blank-after-trim messages skipped, or
the literal fallback line for an empty rendering), and the verbatim
question. -/
theorem claim_C8_prompt_builder :
    (∀ (q : String) (items : List RetrievedItem) (history : List Message),
      build_prompt q items history =
        promptPreamble ++
        String.intercalate "\n\n" (items.map (fun it => it.content)) ++
        "\n\n" ++ "CHAT HISTORY:\n" ++ format_history history ++
        "\n\n" ++ "USER QUESTION:\n" ++ q ++ "\n\n" ++ "ANSWER:") ∧
    format_history [] = "No prior history." ∧
    (∀ history : List Message, renderedHistoryLines history = [] →
      format_history history = "No prior history.") ∧
    (∀ history : List Message, renderedHistoryLines history ≠ [] →
      format_history history = String.intercalate "\n" (renderedHistoryLines history)) ∧
    (∃ pre post : String, promptPreamble = pre ++ NO_CONTEXT_FALLBACK ++ post) := by
  refine ⟨?_, rfl, ?_, ?_, ?_⟩
  · intro q items history
    rfl
  · intro history h
    by_cases hh : history = []
    · rw [hh]
      rfl
    · rw [format_history_lines history hh, if_pos h]
  · intro history h
    have hh : history ≠ [] := by
      intro hc
      rw [hc] at h
      exact h rfl
    rw [format_history_lines history hh, if_neg h]
  · refine ⟨"You are a helpful AI assistant.\n\n" ++
      "STRICT RULES:\n" ++
      "- Answer ONLY from provided context\n" ++
      "- Chat history is only for continuity\n" ++
      "- If answer not found -> say " ++ apos,
      apos ++ "\n\n" ++ "CONTEXT:\n", ?_⟩
    simp only [promptPreamble, NO_CONTEXT_FALLBACK, String.append_assoc]

theorem claim_C8_prompt_builder_witness :
    format_history [⟨"user", "  "⟩] = "No prior history." ∧
    format_history [⟨"user", "hi"⟩] =
      String.intercalate "\n" (renderedHistoryLines [⟨"user", "hi"⟩]) :=
  ⟨claim_C8_prompt_builder.2.2.1 [⟨"user", "  "⟩] (by decide),
   claim_C8_prompt_builder.2.2.2.1 [⟨"user", "hi"⟩] (by decide)⟩

/-! Section: Stripping lemmas and the chat handler -/

theorem dropWhile_eq_append {α : Type} (p : α → Bool) (l : List α) :
    ∃ c, l = c ++ l.dropWhile p := by
  induction l with
  | nil => exact ⟨[], rfl⟩
  | cons a t ih =>
    by_cases h : p a
    · obtain ⟨c, hc⟩ := ih
      refine ⟨a :: c, ?_⟩
      rw [List.dropWhile_cons_of_pos h, List.cons_append, ← hc]
    · refine ⟨[], ?_⟩
      rw [List.dropWhile_cons_of_neg h, List.nil_append]

theorem dropWhile_head_false {α : Type} (p : α → Bool) (l : List α) (a : α) (t : List α)
    (h : l.dropWhile p = a :: t) : p a = false := by
  have w : l.dropWhile p ≠ [] := by rw [h]; simp
  have := List.head_dropWhile_not p l w
  simp only [h, List.head_cons] at this
  exact this

theorem dropWhile_idem {α : Type} (p : α → Bool) (l : List α) :
    (l.dropWhile p).dropWhile p = l.dropWhile p := by
  cases hdw : l.dropWhile p with
  | nil => rfl
  | cons a t =>
    have hp := dropWhile_head_false p l a t hdw
    rw [List.dropWhile_cons_of_neg (by simp [hp])]

theorem pyStrip_idem (s : String) : pyStrip (pyStrip s) = pyStrip s := by
  unfold pyStrip
  show String.mk _ = String.mk _
  congr 1
  show ((((((s.data.dropWhile _).reverse.dropWhile _).reverse : List Char)).dropWhile
    _).reverse.dropWhile _).reverse = _
  have stepA :
      (((s.data.dropWhile (fun c => c.isWhitespace)).reverse.dropWhile
        (fun c => c.isWhitespace)).reverse).dropWhile (fun c => c.isWhitespace) =
      ((s.data.dropWhile (fun c => c.isWhitespace)).reverse.dropWhile
        (fun c => c.isWhitespace)).reverse := by
    cases hr : ((s.data.dropWhile (fun c => c.isWhitespace)).reverse.dropWhile
        (fun c => c.isWhitespace)).reverse with
    | nil => rfl
    | cons a t =>
      obtain ⟨c, hc⟩ := dropWhile_eq_append (fun c => c.isWhitespace)
        (s.data.dropWhile (fun c => c.isWhitespace)).reverse
      have hd1 : s.data.dropWhile (fun c => c.isWhitespace) =
          a :: (t ++ c.reverse) := by
        have h2 := congrArg List.reverse hc
        rw [List.reverse_reverse, List.reverse_append] at h2
        rw [h2, hr]
        rfl
      have hp := dropWhile_head_false (fun c => c.isWhitespace) s.data a _ hd1
      rw [List.dropWhile_cons_of_neg (by simp [hp])]
  rw [stepA, List.reverse_reverse, dropWhile_idem]

theorem get_recent_messages_fst (st : SessionStore) (sid : String) (limit : ℤ)
    (h : 0 < limit) :
    (get_recent_messages st sid limit).1 = lastN limit.toNat (sessionLog st sid) := by
  simp only [get_recent_messages, if_neg (not_le.mpr h)]
  rw [lookupSession_setdefaultEmpty_self]
  rfl

theorem lastN_of_length_le {α : Type} (n : ℕ) (l : List α) (h : l.length ≤ n) :
    lastN n l = l := by
  unfold lastN
  have h0 : l.length - n = 0 := by omega
  rw [h0, List.drop_zero]

theorem genStep_log (x : Except GenError String) (st : SessionStore) (sid : String)
    (n : ℕ) (p : String) : (genStep x st sid n p).2.2 = [p] := by
  rcases x with e | r
  · cases e <;> rfl
  · rfl

/-- The history read by the handler equals the last 5 messages of the
prior log extended with the freshly appended user message. -/
theorem chatHistory_eq (st : SessionStore) (sid msg : String) (hmsg : pyStrip msg = msg)
    (hne : msg ≠ "") :
    chatHistory st sid msg =
      lastN MAX_SESSION_MESSAGES (sessionLog st sid ++ [⟨"user", msg⟩]) := by
  unfold chatHistory
  rw [get_recent_messages_fst _ _ _ (by decide)]
  rw [add_message_log_self _ _ _ _ (Or.inl rfl) (by rw [hmsg]; exact hne)]
  rw [hmsg, sessionLog_setdefaultEmpty_self]
  apply lastN_of_length_le
  rw [length_lastN]
  have : (MAX_SESSION_MESSAGES : ℤ).toNat = MAX_SESSION_MESSAGES := rfl
  rw [this]
  exact Nat.min_le_left _ _

/-- C9: when retrieval comes back empty the handler returns the canned
fallback with a retrieved-chunk count of zero and never invokes the
Generator: the prompt log is empty and the result does not depend on
the generator at all. -/
theorem claim_C9_fallback_shortcircuit :
    ∀ (embed : String → List ℚ) (docs : List Document)
      (gen gen' : String → Except GenError String) (st : SessionStore)
      (sessionId message : Option String),
      pyStrip (sessionId.getD "") ≠ "" →
      pyStrip (message.getD "") ≠ "" →
      embed (pyStrip (message.getD "")) ≠ [] →
      retrieve_top_k (embed (pyStrip (message.getD ""))) docs RETRIEVAL_TOP_K
        SIMILARITY_THRESHOLD = [] →
      (chat embed (.ok docs) gen st sessionId message).1 =
        .ok ⟨NO_CONTEXT_FALLBACK, 0⟩ ∧
      (chat embed (.ok docs) gen st sessionId message).2.2 = [] ∧
      chat embed (.ok docs) gen st sessionId message =
        chat embed (.ok docs) gen' st sessionId message := by
  intro embed docs gen gen' st sessionId message h1 h2 h3 hret
  simp only [chat, if_neg h1, if_neg h2, if_neg h3, hret]
  simp

theorem claim_C9_fallback_shortcircuit_witness :
    (chat (fun _ => [1]) (.ok []) (fun _ => .ok "x") [] (some "s") (some "hi")).1 =
      .ok ⟨NO_CONTEXT_FALLBACK, 0⟩ ∧
    (chat (fun _ => [1]) (.ok []) (fun _ => .ok "x") [] (some "s") (some "hi")).2.2 = [] ∧
    chat (fun _ => [1]) (.ok []) (fun _ => .ok "x") [] (some "s") (some "hi") =
      chat (fun _ => [1]) (.ok []) (fun _ => .error .timeout) [] (some "s") (some "hi") :=
  claim_C9_fallback_shortcircuit (fun _ => [1]) [] (fun _ => .ok "x")
    (fun _ => .error .timeout) [] (some "s") (some "hi")
    (by decide) (by decide) (by decide) rfl

/-- C10: the handler appends the current user message to session memory
before reading the history used for prompt building, so the prompt sent
to the generator embeds a history whose most recent entry is the
current question, and a session already at the cap has its oldest prior
message evicted from that history. -/
theorem claim_C10_history_has_current_message :
    ∀ (embed : String → List ℚ) (docs : List Document)
      (gen : String → Except GenError String) (st : SessionStore)
      (sessionId message : Option String),
      pyStrip (sessionId.getD "") ≠ "" →
      pyStrip (message.getD "") ≠ "" →
      embed (pyStrip (message.getD "")) ≠ [] →
      retrieve_top_k (embed (pyStrip (message.getD ""))) docs RETRIEVAL_TOP_K
        SIMILARITY_THRESHOLD ≠ [] →
      (chat embed (.ok docs) gen st sessionId message).2.2 =
        [build_prompt (pyStrip (message.getD ""))
          (retrieve_top_k (embed (pyStrip (message.getD ""))) docs RETRIEVAL_TOP_K
            SIMILARITY_THRESHOLD)
          (chatHistory st (pyStrip (sessionId.getD "")) (pyStrip (message.getD "")))] ∧
      (chatHistory st (pyStrip (sessionId.getD "")) (pyStrip (message.getD ""))).getLast? =
        some ⟨"user", pyStrip (message.getD "")⟩ ∧
      ((sessionLog st (pyStrip (sessionId.getD ""))).length = MAX_SESSION_MESSAGES →
        chatHistory st (pyStrip (sessionId.getD "")) (pyStrip (message.getD "")) =
          (sessionLog st (pyStrip (sessionId.getD ""))).drop 1 ++
            [⟨"user", pyStrip (message.getD "")⟩]) := by
  intro embed docs gen st sessionId message h1 h2 h3 hret
  have hhist := chatHistory_eq st (pyStrip (sessionId.getD "")) (pyStrip (message.getD ""))
    (pyStrip_idem _) h2
  refine ⟨?_, ?_, ?_⟩
  · simp only [chat]
    rw [if_neg h1, if_neg h2, if_neg h3, if_neg hret]
    rw [genStep_log]
    rfl
  · rw [hhist]
    unfold lastN
    rw [List.drop_append_of_le_length (by simp [MAX_SESSION_MESSAGES])]
    rw [List.getLast?_concat]
  · intro hcap
    rw [hhist]
    unfold lastN
    have hlen : (sessionLog st (pyStrip (sessionId.getD "")) ++
        [(⟨"user", pyStrip (message.getD "")⟩ : Message)]).length -
        MAX_SESSION_MESSAGES = 1 := by
      rw [List.length_append, hcap]
      rfl
    rw [hlen, List.drop_append_of_le_length (by rw [hcap]; norm_num [MAX_SESSION_MESSAGES])]

theorem claim_C10_history_has_current_message_witness :
    (chat (fun _ => [1]) (.ok [⟨true, .vec [1], some "c"⟩]) (fun _ => .ok "ans") []
        (some "s") (some "hi")).2.2 =
      [build_prompt (pyStrip ((some "hi" : Option String).getD ""))
        (retrieve_top_k ((fun _ => [1]) (pyStrip ((some "hi" : Option String).getD "")))
          [⟨true, .vec [1], some "c"⟩] RETRIEVAL_TOP_K SIMILARITY_THRESHOLD)
        (chatHistory [] (pyStrip ((some "s" : Option String).getD ""))
          (pyStrip ((some "hi" : Option String).getD "")))] ∧
    (chatHistory [] (pyStrip ((some "s" : Option String).getD ""))
        (pyStrip ((some "hi" : Option String).getD ""))).getLast? =
      some ⟨"user", pyStrip ((some "hi" : Option String).getD "")⟩ ∧
    ((sessionLog [] (pyStrip ((some "s" : Option String).getD ""))).length =
        MAX_SESSION_MESSAGES →
      chatHistory [] (pyStrip ((some "s" : Option String).getD ""))
          (pyStrip ((some "hi" : Option String).getD "")) =
        (sessionLog [] (pyStrip ((some "s" : Option String).getD ""))).drop 1 ++
          [⟨"user", pyStrip ((some "hi" : Option String).getD "")⟩]) := by
  apply claim_C10_history_has_current_message (fun _ => [1]) [⟨true, .vec [1], some "c"⟩]
    (fun _ => .ok "ans") [] (some "s") (some "hi") (by decide) (by decide) (by decide)
  rw [retrieve_top_k_eq _ _ _ _ (by decide) (by simp)]
  have he : rankEntry [1] (7/10 : ℚ) ⟨true, .vec [1], some "c"⟩ =
      some ⟨"c", [1], ⟨1, 1, one_pos⟩⟩ := by
    norm_num [rankEntry, cosine_similarity, dot, normSq, SimScore.lt,
      SimScore.le, SimScore.ofRat]
  have hre : rankedEntries [1] [⟨true, .vec [1], some "c"⟩] SIMILARITY_THRESHOLD =
      [⟨"c", [1], ⟨1, 1, one_pos⟩⟩] := by
    unfold rankedEntries SIMILARITY_THRESHOLD
    rw [List.filterMap_cons, he]
    rfl
  rw [hre, List.mergeSort_singleton]
  simp [RETRIEVAL_TOP_K]
